import Mathlib

/-!
Shallow embedding of the google-calendar-hcp-sync service, for checking its
specification claims.  Translated from:
  src/storage.js   (sqlite-backed store: watch row, mappings, cache)
  src/google.js    (pullChanges: sync-token handling and page draining)
  src/hcp.js       (HCP client: resolveCustomerId, createJob, updateJob, deleteJob)
  src/index.js / the handler variant embedded in src/hcp.js
                   (handleCalendarEvent: per-event reconciliation)
JS `undefined`/`null` string fields are modelled as `Option String`; JS
truthiness on strings (`""` is falsy) is modelled by `truthy`/`jsOr`.
-/

namespace CalSync

/-- JS truthiness for an optional string: `undefined`/`null`/`""` are falsy. -/
def truthy : Option String → Bool
  | none => false
  | some s => !(s == "")

/-- JS `a || b` on optional strings. -/
def jsOr (a b : Option String) : Option String :=
  if truthy a then a else b

/-! ## Store model (src/storage.js)

The sqlite database has a singleton `google_watch` row (id = 1), a `mappings`
table keyed by `google_event_id`, and an `hcp_cache` key-value table. -/

/-- The singleton `google_watch` row. -/
structure WatchRow where
  channel_id : String
  resource_id : String
  expiration : String
  next_sync_token : Option String
deriving Repr, DecidableEq

/-- The durable store: `google_watch` singleton row (if present), the
`mappings` table as an association list, and the `hcp_cache` table. -/
structure Store where
  googleWatch : Option WatchRow
  mappings : List (String × String)
  hcpCache : List (String × String)
deriving Repr, DecidableEq

/-- `saveNextSyncToken` (storage.js): a bare
`UPDATE google_watch SET next_sync_token=? WHERE id=1` — if the singleton row
does not exist, the UPDATE matches no row and the store is unchanged. -/
def saveNextSyncToken (token : String) (st : Store) : Store :=
  match st.googleWatch with
  | some w => { st with googleWatch := some { w with next_sync_token := some token } }
  | none => st

/-- The stored continuation token, as `pullChanges` reads it via
`getWatchState()` (`{}` when the row is missing) followed by
`state?.next_sync_token`. -/
def getWatchToken (st : Store) : Option String :=
  st.googleWatch.bind fun w => w.next_sync_token

/-- `getMapping` (storage.js): `SELECT hcp_job_id ... WHERE google_event_id=?`,
then `row?.hcp_job_id || null` (an empty id is normalised to null). -/
def getMapping (googleId : String) (st : Store) : Option String :=
  match st.mappings.find? fun p => p.1 == googleId with
  | some p => if p.2 == "" then none else some p.2
  | none => none

/-- `putMapping` (storage.js): `INSERT OR REPLACE` keyed upsert. -/
def putMapping (googleId hcpId : String) (st : Store) : Store :=
  { st with mappings := (googleId, hcpId) :: st.mappings.filter fun p => !(p.1 == googleId) }

/-- `deleteMapping` (storage.js): `DELETE FROM mappings WHERE google_event_id=?`. -/
def deleteMapping (googleId : String) (st : Store) : Store :=
  { st with mappings := st.mappings.filter fun p => !(p.1 == googleId) }

/-- Number of mapping rows stored for a given event id. -/
def countMapping (googleId : String) (st : Store) : Nat :=
  (st.mappings.filter fun p => p.1 == googleId).length

/-! ## Date arithmetic (JS `Date`)

The handler computes `new Date(new Date(startISO).getTime() + 60*60000)
.toISOString()`.  We embed JS date parsing (restricted to the ISO-8601 UTC
forms the calendar delivers: `YYYY-MM-DD`, `YYYY-MM-DDTHH:MM:SSZ`, and
`YYYY-MM-DDTHH:MM:SS.sssZ`) as milliseconds since the Unix epoch, using the
standard civil-calendar conversion, and `Date.prototype.toISOString` (which
always prints millisecond precision) as the printer. -/

/-- Days since 1970-01-01 for a civil date (proleptic Gregorian). -/
def daysFromCivil (y : Int) (m d : Nat) : Int :=
  let yAdj : Int := if m ≤ 2 then y - 1 else y
  let era : Int := yAdj.fdiv 400
  let yoe : Nat := (yAdj - era * 400).toNat
  let mp : Nat := if m > 2 then m - 3 else m + 9
  let doy : Nat := (153 * mp + 2) / 5 + d - 1
  let doe : Nat := yoe * 365 + yoe / 4 - yoe / 100 + doy
  era * 146097 + (doe : Int) - 719468

/-- Civil date (year, month, day) from days since 1970-01-01. -/
def civilFromDays (z0 : Int) : Int × Nat × Nat :=
  let z : Int := z0 + 719468
  let era : Int := z.fdiv 146097
  let doe : Nat := (z - era * 146097).toNat
  let yoe : Nat := (doe - doe / 1460 + doe / 36524 - doe / 146096) / 365
  let doy : Nat := doe - (365 * yoe + yoe / 4 - yoe / 100)
  let mp : Nat := (5 * doy + 2) / 153
  let d : Nat := doy - (153 * mp + 2) / 5 + 1
  let m : Nat := if mp < 10 then mp + 3 else mp - 9
  let y : Int := (yoe : Int) + era * 400
  (if m ≤ 2 then y + 1 else y, m, d)

/-- Numeric value of a decimal digit character, if it is one. -/
def digitVal (c : Char) : Option Nat :=
  if c.isDigit then some (c.toNat - 48) else none

/-- Two decimal digits. -/
def digits2 (a b : Char) : Option Nat := do
  pure ((← digitVal a) * 10 + (← digitVal b))

/-- Four decimal digits. -/
def digits4 (a b c d : Char) : Option Nat := do
  pure ((← digitVal a) * 1000 + (← digitVal b) * 100 + (← digitVal c) * 10 + (← digitVal d))

/-- Milliseconds since the epoch for a civil date and time of day. -/
def msOfCivil (y mo d h mi s ms : Nat) : Int :=
  daysFromCivil (y : Int) mo d * 86400000 + (h * 3600000 + mi * 60000 + s * 1000 + ms : Nat)

/-- `new Date(s).getTime()` restricted to the UTC ISO-8601 forms delivered by
the calendar API: date-only, seconds precision with `Z`, or milliseconds
precision with `Z`.  `none` models an invalid date (whose `toISOString` would
throw a `RangeError`). -/
def parseISO (s : String) : Option Int :=
  match s.toList with
  | [y1, y2, y3, y4, '-', m1, m2, '-', d1, d2] => do
    pure (msOfCivil (← digits4 y1 y2 y3 y4) (← digits2 m1 m2) (← digits2 d1 d2) 0 0 0 0)
  | [y1, y2, y3, y4, '-', m1, m2, '-', d1, d2, 'T',
     h1, h2, ':', i1, i2, ':', s1, s2, 'Z'] => do
    pure (msOfCivil (← digits4 y1 y2 y3 y4) (← digits2 m1 m2) (← digits2 d1 d2)
      (← digits2 h1 h2) (← digits2 i1 i2) (← digits2 s1 s2) 0)
  | [y1, y2, y3, y4, '-', m1, m2, '-', d1, d2, 'T',
     h1, h2, ':', i1, i2, ':', s1, s2, '.', f1, f2, f3, 'Z'] => do
    pure (msOfCivil (← digits4 y1 y2 y3 y4) (← digits2 m1 m2) (← digits2 d1 d2)
      (← digits2 h1 h2) (← digits2 i1 i2) (← digits2 s1 s2)
      ((← digitVal f1) * 100 + (← digitVal f2) * 10 + (← digitVal f3)))
  | _ => none

/-- Left-pad a numeral with zeroes to the given width. -/
def padNum (width n : Nat) : String :=
  let s := toString n
  String.mk (List.replicate (width - s.length) '0') ++ s

/-- `Date.prototype.toISOString`: always `YYYY-MM-DDTHH:MM:SS.sssZ`. -/
def toISOString (t : Int) : String :=
  let days : Int := t.fdiv 86400000
  let ms : Nat := (t - days * 86400000).toNat
  let c := civilFromDays days
  padNum 4 c.1.toNat ++ "-" ++ padNum 2 c.2.1 ++ "-" ++ padNum 2 c.2.2 ++ "T" ++
    padNum 2 (ms / 3600000) ++ ":" ++ padNum 2 (ms % 3600000 / 60000) ++ ":" ++
    padNum 2 (ms % 60000 / 1000) ++ "." ++ padNum 3 (ms % 1000) ++ "Z"

/-! ## Calendar events and normalization (handleCalendarEvent, first half) -/

/-- A Google event time field: `{dateTime}` for timed, `{date}` for all-day. -/
structure GTime where
  dateTime : Option String
  date : Option String
deriving Repr, DecidableEq

/-- A calendar event as delivered per pull page. -/
structure GEvent where
  id : String
  status : Option String
  summary : Option String
  description : Option String
  start : Option GTime
  end_ : Option GTime
deriving Repr, DecidableEq

/-- `googleEvent.start?.dateTime || googleEvent.start?.date`. -/
def startISOf (ev : GEvent) : Option String :=
  jsOr (ev.start.bind GTime.dateTime) (ev.start.bind GTime.date)

/-- `googleEvent.end?.dateTime || googleEvent.end?.date` before synthesis. -/
def rawEndISOf (ev : GEvent) : Option String :=
  jsOr (ev.end_.bind GTime.dateTime) (ev.end_.bind GTime.date)

/-- The handler's effective `endISO` after the missing-end synthesis:
`if (!endISO && startISO && startISO.length > 10)` replace it with
`new Date(new Date(startISO).getTime() + 60*60000).toISOString()`.
`.error ()` models the `RangeError` thrown by `toISOString` when the timed
start does not parse as a date. -/
def effectiveEndE (ev : GEvent) : Except Unit (Option String) :=
  let sIso := startISOf ev
  let eIso := rawEndISOf ev
  if !(truthy eIso) && truthy sIso && decide ((sIso.getD "").length > 10) then
    match parseISO (sIso.getD "") with
    | some t => .ok (some (toISOString (t + 60 * 60000)))
    | none => .error ()
  else
    .ok eIso

/-- `googleEvent.summary || "Calendar job"`. -/
def titleOf (ev : GEvent) : String :=
  (jsOr ev.summary (some "Calendar job")).getD "Calendar job"

/-- `googleEvent.description || ""`. -/
def descriptionOf (ev : GEvent) : String :=
  (jsOr ev.description (some "")).getD ""

/-! ## The reconciliation handler (handleCalendarEvent)

The per-event handler (the variant in src/hcp.js with the per-event processing
lock and 404-triggered recreation).  Its HCP collaborators
(`resolveCustomerId`, `updateJob`, `createJob`, `deleteJob` from src/hcp.js)
are abstracted as pure response functions — "no intervening state change"
means the downstream answers the same on replay.  Every call the handler
issues is recorded in a trace. -/

/-- An error from an HCP call, as the handler inspects it
(`err?.response?.status === 404`). -/
inductive HErr where
  | http (status : Nat)
  | netErr (msg : String)
deriving Repr, DecidableEq

/-- `err?.response?.status === 404`. -/
def isNotFound : HErr → Bool
  | .http s => s == 404
  | .netErr _ => false

/-- The schedule fields the handler passes to `createJob`/`updateJob`. -/
structure JobFields where
  startISO : String
  endISO : String
  title : String
  description : String
deriving Repr, DecidableEq

/-- Downstream responses, fixed for the duration of a replay. -/
structure HcpApi where
  resolveCustomerId : Except HErr String
  updateJob : String → JobFields → Except HErr Unit
  createJob : String → JobFields → Except HErr (Option String)
  deleteJob : String → Except HErr Unit

/-- One observable call made by the handler, with its outcome. -/
inductive HCall where
  | getMapping (evtId : String) (result : Option String)
  | resolveCustomer (result : Except HErr String)
  | updateJob (jobId : String) (result : Except HErr Unit)
  | createJob (result : Except HErr (Option String))
  | deleteJob (jobId : String) (result : Except HErr Unit)
  | putMapping (evtId jobId : String)
  | deleteMapping (evtId : String)

/-- Is this trace entry a `createJob` call? -/
def HCall.isCreate : HCall → Bool
  | .createJob _ => true
  | _ => false

/-- Is this trace entry a `deleteJob` (downstream cancel) call? -/
def HCall.isDeleteJob : HCall → Bool
  | .deleteJob _ _ => true
  | _ => false

/-- Number of `createJob` calls in a trace. -/
def createCalls (tr : List HCall) : Nat :=
  (tr.filter HCall.isCreate).length

/-- Number of `deleteJob` calls in a trace. -/
def deleteJobCalls (tr : List HCall) : Nat :=
  (tr.filter HCall.isDeleteJob).length

/-- Mutable state the handler touches: the durable store and the in-memory
`processingLocks` map. -/
structure SyncState where
  store : Store
  locks : List String
deriving Repr, DecidableEq

/-- `processingLocks.delete(evtId)` in the `finally` block. -/
def releaseLock (evtId : String) (s : SyncState) : SyncState :=
  { s with locks := s.locks.filter fun l => !(l == evtId) }

/-- The schedule fields the handler builds for this event. -/
def mkJobFields (ev : GEvent) (endI : Option String) : JobFields :=
  { startISO := (startISOf ev).getD ""
    endISO := endI.getD ""
    title := titleOf ev
    description := descriptionOf ev }

/-- `handleCalendarEvent` (the src/hcp.js variant): lock check, normalization,
mapping lookup, cancel / skip / update-or-recreate / create state machine.
Returns the new state, the call trace, and whether the handler threw (only the
`toISOString` `RangeError` escapes the handler's own catches). -/
def handleCalendarEvent (api : HcpApi) (ev : GEvent) (s0 : SyncState) :
    SyncState × List HCall × Bool :=
  let evtId := ev.id
  if s0.locks.contains evtId then
    -- Skipping: already processing
    (s0, [], false)
  else
    let s := { s0 with locks := evtId :: s0.locks }
    match effectiveEndE ev with
    | .error _ =>
      -- RangeError from toISOString propagates; the finally releases the lock
      (releaseLock evtId s, [], true)
    | .ok endI =>
      let startI := startISOf ev
      let existing := getMapping evtId s.store
      let tr0 := [HCall.getMapping evtId existing]
      if ev.status == some "cancelled" then
        match existing with
        | some jid =>
          -- deleteJob(existing).catch(console.error); then deleteMapping
          let dres := api.deleteJob jid
          (releaseLock evtId { s with store := deleteMapping evtId s.store },
           tr0 ++ [.deleteJob jid dres, .deleteMapping evtId], false)
        | none => (releaseLock evtId s, tr0, false)
      else
        if !(truthy startI) || !(truthy endI) then
          -- "Event missing start or end, skipping"
          (releaseLock evtId s, tr0, false)
        else
          match api.resolveCustomerId with
          | .error e =>
            -- resolveCustomerId error: skip this event but keep the sync moving
            (releaseLock evtId s, tr0 ++ [.resolveCustomer (.error e)], false)
          | .ok customerId =>
            let fields := mkJobFields ev endI
            let tr1 := tr0 ++ [.resolveCustomer (.ok customerId)]
            match existing with
            | some jid =>
              match api.updateJob jid fields with
              | .ok _ => (releaseLock evtId s, tr1 ++ [.updateJob jid (.ok ())], false)
              | .error err =>
                if isNotFound err then
                  -- recreate the job and update the mapping
                  match api.createJob customerId fields with
                  | .ok hcpId =>
                    if truthy hcpId then
                      (releaseLock evtId
                        { s with store := putMapping evtId (hcpId.getD "") s.store },
                       tr1 ++ [.updateJob jid (.error err), .createJob (.ok hcpId),
                         .putMapping evtId (hcpId.getD "")], false)
                    else
                      (releaseLock evtId s,
                       tr1 ++ [.updateJob jid (.error err), .createJob (.ok hcpId)], false)
                  | .error ce =>
                    -- createJob (recovery) failed: logged
                    (releaseLock evtId s,
                     tr1 ++ [.updateJob jid (.error err), .createJob (.error ce)], false)
                else
                  -- updateJob error: logged, mapping left in place
                  (releaseLock evtId s, tr1 ++ [.updateJob jid (.error err)], false)
            | none =>
              match api.createJob customerId fields with
              | .ok hcpId =>
                if truthy hcpId then
                  (releaseLock evtId
                    { s with store := putMapping evtId (hcpId.getD "") s.store },
                   tr1 ++ [.createJob (.ok hcpId), .putMapping evtId (hcpId.getD "")], false)
                else (releaseLock evtId s, tr1 ++ [.createJob (.ok hcpId)], false)
              | .error ce =>
                -- createJob error: logged, sync continues with next event
                (releaseLock evtId s, tr1 ++ [.createJob (.error ce)], false)

/-! ## The change-pull loop (src/google.js, pullChanges)

`calendar.events.list` responses are modelled as data: `probe` is the response
to the page-size-1 reseed call, and `pages` the successive responses to the
delta listing.  The per-event handler is a parameter (src/index.js passes
`handleCalendarEvent`); it transforms the shared state and reports whether it
threw.  Every observable action of a pull is recorded in a trace. -/

/-- An error from the calendar API, as `pullChanges` inspects it
(`error?.response?.status`). -/
inductive GErr where
  | http (status : Nat)
  | other (msg : String)
deriving Repr, DecidableEq

/-- `status === 404 || error?.code === 404`. -/
def isG404 : GErr → Bool
  | .http s => s == 404
  | .other _ => false

/-- Response to the `maxResults: 1` probe call. -/
structure ProbeResp where
  nextSyncToken : Option String
deriving Repr, DecidableEq

/-- One page of the delta listing. -/
structure Page where
  items : List GEvent
  nextPageToken : Option String
  nextSyncToken : Option String
deriving Repr, DecidableEq

/-- The calendar's behaviour during one pull: the probe response and the
successive page responses of the delta listing. -/
structure CalendarApi where
  probe : Except GErr ProbeResp
  pages : List (Except GErr Page)

/-- Observable actions of one pull. -/
inductive PullEvt where
  | probeCall
  | listCall
  | handlerCall (ev : GEvent) (threw : Bool)
  | saveToken (t : String)
deriving Repr, DecidableEq

/-- How a pull ended: normally, by throwing, or by needing a page response
beyond those provided (never reached under `drainsAll`). -/
inductive PullRes where
  | ok
  | threw (e : GErr)
  | outOfPages
deriving Repr, DecidableEq

/-- A per-event handler as `pullChanges` sees it: new state plus whether the
call threw (the loop catches and logs, then continues). -/
def Handler : Type := GEvent → SyncState → SyncState × Bool

/-- The `for (const ev of events) { try { await handler(ev) } catch ... }`
loop over one page: the thrown flag is caught (logged) and processing
continues with the state the handler left behind. -/
def runHandlers (h : Handler) : List GEvent → SyncState → SyncState × List PullEvt
  | [], s => (s, [])
  | ev :: rest, s =>
    let r := h ev s
    let r2 := runHandlers h rest r.1
    (r2.1, .handlerCall ev r.2 :: r2.2)

/-- The `do { ... } while (pageToken)` loop of `pullChanges`: fetch a page
(on a 404, reseed via the probe and return; other errors are logged and
rethrown), run the handler over its items, fold
`newNextSync = res.data.nextSyncToken || newNextSync`, and continue while
`nextPageToken` is set; after the loop, `if (newNextSync)` save it. -/
def drainPages (h : Handler) (probe : Except GErr ProbeResp) :
    List (Except GErr Page) → SyncState → Option String → List PullEvt →
    SyncState × List PullEvt × PullRes
  | [], s, _, tr => (s, tr, .outOfPages)
  | .error e :: _, s, _, tr =>
    if isG404 e then
      -- reseed a fresh nextSyncToken and exit
      match probe with
      | .ok pr =>
        match pr.nextSyncToken with
        | some t =>
          ({ s with store := saveNextSyncToken t s.store },
           tr ++ [.listCall, .probeCall, .saveToken t], .ok)
        | none => (s, tr ++ [.listCall, .probeCall], .threw e)
      | .error _ =>
        -- "Reseed after 404 failed": logged, original error rethrown
        (s, tr ++ [.listCall, .probeCall], .threw e)
    else
      (s, tr ++ [.listCall], .threw e)
  | .ok p :: rest, s, acc, tr =>
    let r := runHandlers h p.items s
    let s1 := r.1
    let acc1 := match p.nextSyncToken with
      | some t => some t
      | none => acc
    let tr1 := tr ++ .listCall :: r.2
    match p.nextPageToken with
    | some _ => drainPages h probe rest s1 acc1 tr1
    | none =>
      match acc1 with
      | some t =>
        ({ s1 with store := saveNextSyncToken t s1.store },
         tr1 ++ [.saveToken t], .ok)
      | none => (s1, tr1, .ok)

/-- `pullChanges(handler)`: if the stored continuation token is absent, probe
for a fresh one (`maxResults: 1`, `showDeleted: true`), save it and return;
if the probe yields no token, fall through to the listing loop.  Otherwise
drain the delta pages. -/
def pullChanges (h : Handler) (api : CalendarApi) (s : SyncState) :
    SyncState × List PullEvt × PullRes :=
  if (getWatchToken s.store).isNone then
    match api.probe with
    | .ok pr =>
      match pr.nextSyncToken with
      | some t =>
        ({ s with store := saveNextSyncToken t s.store },
         [.probeCall, .saveToken t], .ok)
      | none => drainPages h api.probe api.pages s none [.probeCall]
    | .error e =>
      -- probe failure: 404 becomes a friendly error, both are thrown
      (s, [.probeCall], .threw e)
  else
    drainPages h api.probe api.pages s none []

/-- The responses drain cleanly: each page fetch succeeds, every page but the
last carries a `nextPageToken`, and the loop's final page is the last
response provided. -/
def drainsAll : List (Except GErr Page) → Bool
  | [] => false
  | .error _ :: _ => false
  | .ok p :: rest =>
    match p.nextPageToken, rest with
    | none, [] => true
    | none, _ :: _ => false
    | some _, [] => false
    | some _, r :: rs => drainsAll (r :: rs)

/-- The sync token reported by the last page of the pull. -/
def lastSyncToken (resps : List (Except GErr Page)) : Option String :=
  match resps.getLast? with
  | some (.ok p) => p.nextSyncToken
  | _ => none

/-- All events of all pages, in delivery order. -/
def allItems : List (Except GErr Page) → List GEvent
  | [] => []
  | .ok p :: rest => p.items ++ allItems rest
  | .error _ :: rest => allItems rest

/-- `newNextSync = res.data.nextSyncToken || newNextSync` folded over the
drained pages. -/
def foldSync : Option String → List (Except GErr Page) → Option String
  | acc, [] => acc
  | acc, .ok p :: rest =>
    foldSync (match p.nextSyncToken with | some t => some t | none => acc) rest
  | acc, .error _ :: rest => foldSync acc rest

/-- The token-save calls recorded in a pull trace. -/
def tokenSaves (tr : List PullEvt) : List String :=
  tr.filterMap fun e => match e with | .saveToken t => some t | _ => none

/-- The events passed to the per-event handler, in order. -/
def handledEvents (tr : List PullEvt) : List GEvent :=
  tr.filterMap fun e => match e with | .handlerCall ev _ => some ev | _ => none

/-- Number of probe (`maxResults: 1`) calls in a pull trace. -/
def probeCalls (tr : List PullEvt) : Nat :=
  (tr.filter fun e => match e with | .probeCall => true | _ => false).length

/-- State after running the handler over a list of events in order. -/
def applyHandlers (h : Handler) (evs : List GEvent) (s : SyncState) : SyncState :=
  evs.foldl (fun st ev => (h ev st).1) s

/-! ## Inside the HCP client (src/hcp.js)

`hcp()` is a bare axios instance (base URL, bearer header, 20000 ms timeout);
there is no wrapper around the outbound calls.  To settle how `createJob`
behaves across attempts, the transport is modelled as the list of responses
successive HTTP requests would receive; the embedding records how many of
them the code consumes. -/

/-- The possible id locations in a create-job response:
`res.data?.id || res.data?.job?.id || res.data?.data?.id`. -/
structure CreateResp where
  id : Option String
  jobId : Option String
  dataId : Option String
deriving Repr, DecidableEq

/-- `createJob` (src/hcp.js): one `POST /jobs`, extract the id from whichever
response field carries it.  `attempts` is the list of responses successive
requests would get; the result is paired with the number of requests made. -/
def createJobHttp (attempts : List (Except HErr CreateResp)) :
    Except HErr (Option String) × Nat :=
  match attempts with
  | [] => (.error (.netErr "no response"), 0)
  | r :: _ =>
    match r with
    | .ok resp => (.ok (jsOr resp.id (jsOr resp.jobId resp.dataId)), 1)
    | .error e => (.error e, 1)

/-! ### resolveCustomerId (src/hcp.js) -/

/-- One customer record as listed by `GET /customers`. -/
structure Customer where
  name : Option String
  id : String
deriving Repr, DecidableEq

/-- A `GET /customers` page: `res.data.data` and `res.data.next_page`. -/
structure CustomersResp where
  data : List Customer
  next_page : Bool
deriving Repr, DecidableEq

/-- Calls `resolveCustomerId` can make.  `createCustomer` is the
create-if-missing fallback the specification describes; it is only here so
that its absence from every trace of the code can be stated. -/
inductive RCCall where
  | list (page : Nat)
  | createCustomer
deriving Repr, DecidableEq

/-- Errors surfaced by `resolveCustomerId`. -/
inductive RErr where
  | axios (e : HErr)
  | couldNotResolve
deriving Repr, DecidableEq

/-- `(c.name || "").toLowerCase().trim() === name.toLowerCase().trim()`. -/
def nameMatches (target : String) (c : Customer) : Bool :=
  ((jsOr c.name (some "")).getD "").toLower.trim == target.toLower.trim

/-- The `while (page <= MAX_PAGES)` loop of `resolveCustomerId`, by remaining
page budget.  Finds a case-insensitive name match, caches and returns it;
stops early when `next_page` is falsy; throws when the budget is exhausted. -/
def resolveLoop (fetch : Nat → Except HErr CustomersResp) (target : String) :
    Nat → Nat → List RCCall → Except RErr String × List RCCall × List (String × String)
  | 0, _, calls => (.error .couldNotResolve, calls, [])
  | budget + 1, page, calls =>
    match fetch page with
    | .error e => (.error (.axios e), calls ++ [.list page], [])
    | .ok resp =>
      let calls1 := calls ++ [.list page]
      match resp.data.find? (nameMatches target) with
      | some c => (.ok c.id, calls1, [("customer_id", c.id)])
      | none =>
        if resp.next_page then
          resolveLoop fetch target budget (page + 1) calls1
        else
          (.error .couldNotResolve, calls1, [])

/-- `resolveCustomerId` (src/hcp.js): configured env id, then cache, then the
bounded (`MAX_PAGES = 5`) paginated name search; exhaustion throws
"Could not resolve HCP customer_id".  Returns the result, the calls made, and
the cache writes performed. -/
def resolveCustomerId (configured cached envName : Option String)
    (fetch : Nat → Except HErr CustomersResp) :
    Except RErr String × List RCCall × List (String × String) :=
  let confTrim := configured.map String.trim
  if truthy confTrim then (.ok (confTrim.getD ""), [], [])
  else if truthy cached then (.ok (cached.getD ""), [], [])
  else
    let name := (jsOr envName (some "Ben King")).getD "Ben King"
    resolveLoop fetch name 5 1 []

/-- The effective lookup name: `process.env.HCP_CUSTOMER_NAME || "Ben King"`. -/
def effTarget (envName : Option String) : String :=
  (jsOr envName (some "Ben King")).getD "Ben King"

/-- The per-event handler exactly as the webhook wires it:
`pullChanges(handleCalendarEvent)`. -/
def eventHandler (api : HcpApi) : Handler := fun ev s =>
  ((handleCalendarEvent api ev s).1, (handleCalendarEvent api ev s).2.2)

/-! ## Concrete fixtures used by witnesses -/

/-- An active, timed, mapped event. -/
def evActive : GEvent :=
  ⟨"ev1", some "confirmed", some "Install", some "",
   some ⟨some "2024-01-01T10:00:00Z", none⟩, some ⟨some "2024-01-01T12:00:00Z", none⟩⟩

/-- A cancelled event (the skeleton the calendar sends for deletions). -/
def evCancelled : GEvent := ⟨"ev1", some "cancelled", none, none, none, none⟩

/-- An active timed event with no end field. -/
def evNoEnd : GEvent :=
  ⟨"ev8", some "confirmed", none, none, some ⟨some "2024-01-01T10:00:00Z", none⟩, none⟩

/-- A store whose watch row holds token `"T0"` and which maps `ev1` to `J1`. -/
def storeMapped : Store := ⟨some ⟨"ch", "rs", "ex", some "T0"⟩, [("ev1", "J1")], []⟩

/-- `storeMapped` with no lock held. -/
def sMapped : SyncState := ⟨storeMapped, []⟩

/-- A store whose watch row exists but has a NULL token. -/
def sNoTok : SyncState := ⟨⟨some ⟨"", "", "", none⟩, [], []⟩, []⟩

/-- A store in which the `google_watch` row was never created. -/
def sNoRow : SyncState := ⟨⟨none, [("x", "y")], []⟩, []⟩

/-- Downstream where the update succeeds and the cancel call fails. -/
def apiOk : HcpApi := ⟨.ok "c1", fun _ _ => .ok (), fun _ _ => .ok (some "J2"), fun _ => .error (.http 500)⟩

/-- Downstream where the mapped job was deleted out of band: update 404s,
creation succeeds with a fresh id. -/
def api404 : HcpApi := ⟨.ok "c1", fun _ _ => .error (.http 404), fun _ _ => .ok (some "J2"), fun _ => .ok ()⟩

/-- Downstream where the update fails with a non-404 error. -/
def api500 : HcpApi := ⟨.ok "c1", fun _ _ => .error (.http 500), fun _ _ => .ok (some "J2"), fun _ => .ok ()⟩

/-- A three-page pull whose pages report sync tokens `T1`/`T2`/`T3`. -/
def calT123 : CalendarApi :=
  ⟨.ok ⟨some "TP"⟩,
   [.ok ⟨[evActive], some "p2", some "T1"⟩,
    .ok ⟨[], some "p3", some "T2"⟩,
    .ok ⟨[evCancelled], none, some "T3"⟩]⟩

/-- A handler that throws on every event. -/
def hThrow : Handler := fun _ s => (s, true)

/-! ## Helper lemmas -/

theorem release_acquire (evtId : String) (X : Store) (l : List String)
    (h : evtId ∉ l) : releaseLock evtId ⟨X, evtId :: l⟩ = ⟨X, l⟩ := by
  simp only [releaseLock, List.filter_cons, beq_self_eq_true, Bool.not_true,
    Bool.false_eq_true, if_false]
  congr 1
  exact List.filter_eq_self.mpr fun x hx => by
    have hne : x ≠ evtId := fun hxe => h (hxe ▸ hx)
    simp [hne]

theorem runHandlers_fst (h : Handler) (evs : List GEvent) (s : SyncState) :
    (runHandlers h evs s).1 = applyHandlers h evs s := by
  induction evs generalizing s with
  | nil => rfl
  | cons ev rest ih => simpa [runHandlers, applyHandlers] using ih (h ev s).1

theorem handledEvents_runHandlers (h : Handler) (evs : List GEvent) (s : SyncState) :
    handledEvents (runHandlers h evs s).2 = evs := by
  induction evs generalizing s with
  | nil => rfl
  | cons ev rest ih => simpa [runHandlers, handledEvents] using ih (h ev s).1

theorem tokenSaves_runHandlers (h : Handler) (evs : List GEvent) (s : SyncState) :
    tokenSaves (runHandlers h evs s).2 = [] := by
  induction evs generalizing s with
  | nil => rfl
  | cons ev rest ih => simpa [runHandlers, tokenSaves] using ih (h ev s).1

theorem probeCalls_runHandlers (h : Handler) (evs : List GEvent) (s : SyncState) :
    probeCalls (runHandlers h evs s).2 = 0 := by
  induction evs generalizing s with
  | nil => rfl
  | cons ev rest ih => simpa [runHandlers, probeCalls] using ih (h ev s).1

theorem handledEvents_append (a b : List PullEvt) :
    handledEvents (a ++ b) = handledEvents a ++ handledEvents b := by
  simp [handledEvents, List.filterMap_append]

theorem tokenSaves_append (a b : List PullEvt) :
    tokenSaves (a ++ b) = tokenSaves a ++ tokenSaves b := by
  simp [tokenSaves, List.filterMap_append]

theorem probeCalls_append (a b : List PullEvt) :
    probeCalls (a ++ b) = probeCalls a + probeCalls b := by
  simp [probeCalls, List.filter_append]

theorem applyHandlers_append (h : Handler) (a b : List GEvent) (s : SyncState) :
    applyHandlers h (a ++ b) s = applyHandlers h b (applyHandlers h a s) := by
  simp [applyHandlers, List.foldl_append]

theorem foldSync_last (resps : List (Except GErr Page)) (T : String)
    (hd : drainsAll resps = true) (hl : lastSyncToken resps = some T) :
    ∀ acc, foldSync acc resps = some T := by
  induction resps with
  | nil => simp [drainsAll] at hd
  | cons hd1 tl ih =>
    intro acc
    match hd1 with
    | .error e => simp [drainsAll] at hd
    | .ok p =>
      match hpt : p.nextPageToken, htl : tl with
      | none, [] =>
        simp only [lastSyncToken, List.getLast?_singleton] at hl
        simp [foldSync, hl]
      | none, _ :: _ => simp [drainsAll, hpt] at hd
      | some _, [] => unfold drainsAll at hd; rw [hpt] at hd; simp at hd
      | some _, r :: rs =>
        unfold drainsAll at hd
        rw [hpt] at hd
        have hl2 : lastSyncToken (r :: rs) = some T := by
          simpa [lastSyncToken, List.getLast?_cons_cons] using hl
        simp only [foldSync]
        exact ih hd hl2 _

theorem handledEvents_listCall (x : List PullEvt) :
    handledEvents (PullEvt.listCall :: x) = handledEvents x := by
  simp [handledEvents]

theorem tokenSaves_listCall (x : List PullEvt) :
    tokenSaves (PullEvt.listCall :: x) = tokenSaves x := by
  simp [tokenSaves]

theorem probeCalls_listCall (x : List PullEvt) :
    probeCalls (PullEvt.listCall :: x) = probeCalls x := by
  simp [probeCalls]

theorem handledEvents_saveToken (t : String) :
    handledEvents [PullEvt.saveToken t] = [] := by
  simp [handledEvents]

theorem tokenSaves_saveToken (t : String) :
    tokenSaves [PullEvt.saveToken t] = [t] := by
  simp [tokenSaves]

theorem probeCalls_saveToken (t : String) :
    probeCalls [PullEvt.saveToken t] = 0 := by
  simp [probeCalls]

theorem drain_facts (h : Handler) (probe : Except GErr ProbeResp) :
    ∀ resps : List (Except GErr Page), drainsAll resps = true →
    ∀ (s : SyncState) (acc : Option String) (tr : List PullEvt),
      (drainPages h probe resps s acc tr).2.2 = .ok ∧
      (drainPages h probe resps s acc tr).1 =
        (match foldSync acc resps with
         | some t =>
           { applyHandlers h (allItems resps) s with
             store := saveNextSyncToken t (applyHandlers h (allItems resps) s).store }
         | none => applyHandlers h (allItems resps) s) ∧
      handledEvents (drainPages h probe resps s acc tr).2.1 =
        handledEvents tr ++ allItems resps ∧
      tokenSaves (drainPages h probe resps s acc tr).2.1 =
        tokenSaves tr ++ (match foldSync acc resps with | some t => [t] | none => []) ∧
      probeCalls (drainPages h probe resps s acc tr).2.1 = probeCalls tr ∧
      (∀ t, foldSync acc resps = some t →
        ((drainPages h probe resps s acc tr).2.1).getLast? = some (.saveToken t)) := by
  intro resps
  induction resps with
  | nil => intro hd; simp [drainsAll] at hd
  | cons hd1 tl ih =>
    intro hd s acc tr
    match hd1 with
    | .error e => simp [drainsAll] at hd
    | .ok p =>
      match hpt : p.nextPageToken, htl : tl with
      | none, [] =>
        have hsave : ∀ t : String,
            drainPages h probe [.ok p] s acc tr =
              (match (match p.nextSyncToken with | some u => some u | none => acc) with
               | some t =>
                 ({ (runHandlers h p.items s).1 with
                    store := saveNextSyncToken t ((runHandlers h p.items s).1).store },
                  (tr ++ .listCall :: (runHandlers h p.items s).2) ++ [.saveToken t], .ok)
               | none =>
                 ((runHandlers h p.items s).1,
                  tr ++ .listCall :: (runHandlers h p.items s).2, .ok)) := by
          intro _; simp [drainPages, hpt]
        have hfold : foldSync acc [Except.ok p] =
            (match p.nextSyncToken with | some u => some u | none => acc) := by
          cases hq : p.nextSyncToken <;> simp [foldSync, hq]
        have hall : allItems [Except.ok p] = p.items := by simp [allItems]
        cases hacc1 : (match p.nextSyncToken with | some u => some u | none => acc) with
        | some t =>
          rw [hfold, hacc1]
          rw [hsave t, hacc1]
          refine ⟨rfl, ?_, ?_, ?_, ?_, ?_⟩
          · simp [hall, runHandlers_fst]
          · simp [handledEvents_append, handledEvents_listCall,
              handledEvents_runHandlers, handledEvents_saveToken, hall]
          · simp [tokenSaves_append, tokenSaves_listCall,
              tokenSaves_runHandlers, tokenSaves_saveToken]
          · simp [probeCalls_append, probeCalls_listCall,
              probeCalls_runHandlers, probeCalls_saveToken]
          · intro u hu
            obtain rfl : t = u := by injection hu
            exact List.getLast?_concat _
        | none =>
          rw [hfold, hacc1]
          rw [hsave "", hacc1]
          refine ⟨rfl, ?_, ?_, ?_, ?_, ?_⟩
          · simp [hall, runHandlers_fst]
          · simp [handledEvents_append, handledEvents_listCall,
              handledEvents_runHandlers, hall]
          · simp [tokenSaves_append, tokenSaves_listCall, tokenSaves_runHandlers]
          · simp [probeCalls_append, probeCalls_listCall, probeCalls_runHandlers]
          · intro u hu; cases hu
      | none, _ :: _ => simp [drainsAll, hpt] at hd
      | some _, [] => unfold drainsAll at hd; rw [hpt] at hd; simp at hd
      | some v, r :: rs =>
        unfold drainsAll at hd
        rw [hpt] at hd
        have hstep :
            drainPages h probe (.ok p :: r :: rs) s acc tr =
              drainPages h probe (r :: rs) (runHandlers h p.items s).1
                (match p.nextSyncToken with | some t => some t | none => acc)
                (tr ++ .listCall :: (runHandlers h p.items s).2) := by
          simp [drainPages, hpt]
        obtain ⟨h1, h2, h3, h4, h5, h6⟩ :=
          ih hd (runHandlers h p.items s).1
            (match p.nextSyncToken with | some t => some t | none => acc)
            (tr ++ .listCall :: (runHandlers h p.items s).2)
        rw [hstep]
        have hall : allItems (Except.ok p :: r :: rs) = p.items ++ allItems (r :: rs) := rfl
        have hfold : foldSync acc (Except.ok p :: r :: rs) =
            foldSync (match p.nextSyncToken with | some t => some t | none => acc) (r :: rs) := rfl
        have htr1 : handledEvents (tr ++ .listCall :: (runHandlers h p.items s).2) =
            handledEvents tr ++ p.items := by
          rw [handledEvents_append]
          have : handledEvents (PullEvt.listCall :: (runHandlers h p.items s).2) =
              handledEvents (runHandlers h p.items s).2 := by
            simp [handledEvents]
          rw [this, handledEvents_runHandlers]
        have htr2 : tokenSaves (tr ++ .listCall :: (runHandlers h p.items s).2) =
            tokenSaves tr := by
          rw [tokenSaves_append]
          have : tokenSaves (PullEvt.listCall :: (runHandlers h p.items s).2) =
              tokenSaves (runHandlers h p.items s).2 := by
            simp [tokenSaves]
          rw [this, tokenSaves_runHandlers, List.append_nil]
        have htr3 : probeCalls (tr ++ .listCall :: (runHandlers h p.items s).2) =
            probeCalls tr := by
          rw [probeCalls_append]
          have : probeCalls (PullEvt.listCall :: (runHandlers h p.items s).2) =
              probeCalls (runHandlers h p.items s).2 := by
            simp [probeCalls]
          rw [this, probeCalls_runHandlers]
          simp
        refine ⟨h1, ?_, ?_, ?_, ?_, ?_⟩
        · rw [h2, hfold, hall, applyHandlers_append, runHandlers_fst]
        · rw [h3, htr1, hall, List.append_assoc]
        · rw [h4, htr2, hfold]
        · rw [h5, htr3]
        · intro t ht
          exact h6 t (by rw [← hfold]; exact ht)

theorem syncState_eta (s : SyncState) : (⟨s.store, s.locks⟩ : SyncState) = s := rfl

theorem handle_googleWatch (api : HcpApi) (ev : GEvent) (s : SyncState) :
    ((handleCalendarEvent api ev s).1).store.googleWatch = s.store.googleWatch := by
  unfold handleCalendarEvent
  repeat' split
  all_goals simp only [releaseLock, deleteMapping, putMapping]
  all_goals repeat' split
  all_goals simp [releaseLock, deleteMapping, putMapping]

theorem applyHandlers_googleWatch (h : Handler)
    (hf : ∀ ev st, ((h ev st).1).store.googleWatch = st.store.googleWatch)
    (evs : List GEvent) (s : SyncState) :
    (applyHandlers h evs s).store.googleWatch = s.store.googleWatch := by
  induction evs generalizing s with
  | nil => rfl
  | cons ev rest ih =>
    simp only [applyHandlers, List.foldl_cons]
    exact (ih (h ev s).1).trans (hf ev s)

theorem getMapping_delete (gid : String) (st : Store) :
    getMapping gid (deleteMapping gid st) = none := by
  simp only [getMapping, deleteMapping]
  rw [List.find?_eq_none.mpr]
  intro p hp
  have := (List.mem_filter.mp hp).2
  simp only [Bool.not_eq_eq_eq_not, Bool.not_true] at this
  simp [this]

theorem getMapping_put (gid nid : String) (st : Store) (hnid : (nid == "") = false) :
    getMapping gid (putMapping gid nid st) = some nid := by
  simp [getMapping, putMapping, List.find?_cons, hnid]

theorem countMapping_put (gid nid : String) (st : Store) :
    countMapping gid (putMapping gid nid st) = 1 := by
  have hnil : ((st.mappings.filter fun p => !(p.1 == gid)).filter fun p => p.1 == gid) = [] := by
    rw [List.filter_eq_nil_iff]
    intro p hp
    have h2 := (List.mem_filter.mp hp).2
    simp only [Bool.not_eq_eq_eq_not, Bool.not_true] at h2
    simp [h2]
  simp [countMapping, putMapping, List.filter_cons, hnil]

theorem count_of_find (gid : String) (l : List (String × String))
    (hn : (l.map Prod.fst).Nodup) (p : String × String)
    (hf : l.find? (fun q => q.1 == gid) = some p) :
    (l.filter fun q => q.1 == gid).length = 1 := by
  induction l with
  | nil => simp at hf
  | cons q rest ih =>
    rw [List.map_cons, List.nodup_cons] at hn
    by_cases hq : (q.1 == gid) = true
    · have hgid : q.1 = gid := by simpa using hq
      have hrest : rest.filter (fun r => r.1 == gid) = [] := by
        rw [List.filter_eq_nil_iff]
        intro r hr
        have : r.1 ≠ q.1 := fun hrq =>
          hn.1 (hrq ▸ List.mem_map.mpr ⟨r, hr, rfl⟩)
        simp [hgid ▸ this]
      simp [List.filter_cons, hq, hrest]
    · rw [Bool.not_eq_true] at hq
      simp only [List.find?_cons, hq] at hf
      simp only [List.filter_cons, hq, Bool.false_eq_true, if_false]
      exact ih hn.2 hf

theorem handle_cancelled (api : HcpApi) (ev : GEvent) (s : SyncState) (j : String)
    (endI : Option String)
    (hlock : ev.id ∉ s.locks)
    (hnorm : effectiveEndE ev = .ok endI)
    (hcanc : (ev.status == some "cancelled") = true)
    (hmap : getMapping ev.id s.store = some j) :
    handleCalendarEvent api ev s =
      ({ s with store := deleteMapping ev.id s.store },
       [.getMapping ev.id (some j), .deleteJob j (api.deleteJob j),
        .deleteMapping ev.id], false) := by
  have hcont : (s.locks.contains ev.id) = false := by simpa using hlock
  have hrelX : ∀ X : Store, releaseLock ev.id ⟨X, ev.id :: s.locks⟩ = ⟨X, s.locks⟩ :=
    fun X => release_acquire ev.id X s.locks hlock
  unfold handleCalendarEvent
  simp only [hcont, Bool.false_eq_true, if_false, hnorm, hmap, hcanc, if_true]
  simp only [hrelX]
  rfl

theorem handle_mapped (api : HcpApi) (ev : GEvent) (s : SyncState) (j : String)
    (endI : Option String)
    (hlock : ev.id ∉ s.locks)
    (hnorm : effectiveEndE ev = .ok endI)
    (hcanc : (ev.status == some "cancelled") = false)
    (hs : truthy (startISOf ev) = true)
    (he : truthy endI = true)
    (hmap : getMapping ev.id s.store = some j) :
    handleCalendarEvent api ev s =
      match api.resolveCustomerId with
      | .error e =>
        (s, [.getMapping ev.id (some j), .resolveCustomer (.error e)], false)
      | .ok cid =>
        match api.updateJob j (mkJobFields ev endI) with
        | .ok _ =>
          (s, [.getMapping ev.id (some j), .resolveCustomer (.ok cid),
               .updateJob j (.ok ())], false)
        | .error err =>
          if isNotFound err then
            match api.createJob cid (mkJobFields ev endI) with
            | .ok hid =>
              if truthy hid then
                ({ s with store := putMapping ev.id (hid.getD "") s.store },
                 [.getMapping ev.id (some j), .resolveCustomer (.ok cid),
                  .updateJob j (.error err), .createJob (.ok hid),
                  .putMapping ev.id (hid.getD "")], false)
              else
                (s, [.getMapping ev.id (some j), .resolveCustomer (.ok cid),
                     .updateJob j (.error err), .createJob (.ok hid)], false)
            | .error ce =>
              (s, [.getMapping ev.id (some j), .resolveCustomer (.ok cid),
                   .updateJob j (.error err), .createJob (.error ce)], false)
          else
            (s, [.getMapping ev.id (some j), .resolveCustomer (.ok cid),
                 .updateJob j (.error err)], false) := by
  have hcont : (s.locks.contains ev.id) = false := by simpa using hlock
  have hrel : releaseLock ev.id ⟨s.store, ev.id :: s.locks⟩ = s := by
    rw [release_acquire ev.id s.store s.locks hlock]
  have hrelX : ∀ X : Store, releaseLock ev.id ⟨X, ev.id :: s.locks⟩ = ⟨X, s.locks⟩ :=
    fun X => release_acquire ev.id X s.locks hlock
  unfold handleCalendarEvent
  simp only [hcont, Bool.false_eq_true, if_false, hnorm, hmap, hcanc, hs, he,
    Bool.not_true, Bool.or_self, if_true]
  cases api.resolveCustomerId with
  | error e => simpa using hrel
  | ok cid =>
    cases api.updateJob j (mkJobFields ev endI) with
    | ok u => simpa using hrel
    | error err =>
      by_cases hnf : isNotFound err = true
      · simp only [hnf, if_true]
        cases api.createJob cid (mkJobFields ev endI) with
        | ok hid =>
          by_cases hth : truthy hid = true
          · simp only [hth, if_true]
            simpa using hrelX (putMapping ev.id (hid.getD "") s.store)
          · simp only [Bool.not_eq_true] at hth
            simp only [hth, Bool.false_eq_true, if_false]
            simpa using hrel
        | error ce => simpa using hrel
      · simp only [Bool.not_eq_true] at hnf
        simp only [hnf, Bool.false_eq_true, if_false]
        simpa using hrel

/-! ## The claims -/

/-- Claim C2: a pull that successfully drains all pages stores, as the new
continuation token, exactly the sync token reported by the last page;
the save happens once, as the last action of the pull (hence after every
handler invocation and not per page), so tokens reported by earlier pages are
never stored. -/
theorem c2_token_from_last_page (hapi : HcpApi) (api : CalendarApi)
    (s : SyncState) (t0 T : String)
    (htok : getWatchToken s.store = some t0)
    (hdrain : drainsAll api.pages = true)
    (hlast : lastSyncToken api.pages = some T) :
    getWatchToken ((pullChanges (eventHandler hapi) api s).1).store = some T ∧
    tokenSaves (pullChanges (eventHandler hapi) api s).2.1 = [T] ∧
    ((pullChanges (eventHandler hapi) api s).2.1).getLast? =
      some (.saveToken T) := by
  have hnn : (getWatchToken s.store).isNone = false := by rw [htok]; rfl
  have hpull : pullChanges (eventHandler hapi) api s =
      drainPages (eventHandler hapi) api.probe api.pages s none [] := by
    simp [pullChanges, hnn]
  obtain ⟨h1, h2, h3, h4, h5, h6⟩ :=
    drain_facts (eventHandler hapi) api.probe api.pages hdrain s none []
  have hfold : foldSync none api.pages = some T :=
    foldSync_last api.pages T hdrain hlast none
  rw [hpull]
  refine ⟨?_, ?_, h6 T hfold⟩
  · rw [h2, hfold]
    have hw : (applyHandlers (eventHandler hapi) (allItems api.pages) s).store.googleWatch
        = s.store.googleWatch :=
      applyHandlers_googleWatch _ (fun ev st => handle_googleWatch hapi ev st) _ _
    cases hgw : s.store.googleWatch with
    | none => rw [getWatchToken, hgw] at htok; simp at htok
    | some w => simp [getWatchToken, saveNextSyncToken, hw, hgw]
  · rw [h4, hfold]
    rfl

/-- Claim C2 witness: the spec's three-page example with page tokens
`T1`/`T2`/`T3` — the stored token ends up `T3`, saved exactly once, last. -/
theorem c2_token_from_last_page_witness :
    getWatchToken ((pullChanges (eventHandler apiOk) calT123 sMapped).1).store = some "T3" ∧
    tokenSaves (pullChanges (eventHandler apiOk) calT123 sMapped).2.1 = ["T3"] ∧
    ((pullChanges (eventHandler apiOk) calT123 sMapped).2.1).getLast? =
      some (.saveToken "T3") :=
  c2_token_from_last_page apiOk calT123 sMapped "T0" "T3" rfl rfl rfl

/-- Claim C3: a per-event handler failure does not abort the pull — whatever
the handler does (including throwing on any subset of events), every event of
every page is still passed to it, in order, and the token save for the last
page's sync token is still issued at the end; if the handler leaves the watch
row alone (as the real one does), the stored token still advances. -/
theorem c3_handler_failure_isolated (h : Handler) (api : CalendarApi)
    (s : SyncState) (t0 T : String)
    (htok : getWatchToken s.store = some t0)
    (hdrain : drainsAll api.pages = true)
    (hlast : lastSyncToken api.pages = some T) :
    handledEvents (pullChanges h api s).2.1 = allItems api.pages ∧
    tokenSaves (pullChanges h api s).2.1 = [T] ∧
    ((∀ ev st, ((h ev st).1).store.googleWatch = st.store.googleWatch) →
      getWatchToken ((pullChanges h api s).1).store = some T) := by
  have hnn : (getWatchToken s.store).isNone = false := by rw [htok]; rfl
  have hpull : pullChanges h api s = drainPages h api.probe api.pages s none [] := by
    simp [pullChanges, hnn]
  obtain ⟨h1, h2, h3, h4, h5, h6⟩ :=
    drain_facts h api.probe api.pages hdrain s none []
  have hfold : foldSync none api.pages = some T :=
    foldSync_last api.pages T hdrain hlast none
  rw [hpull]
  refine ⟨?_, ?_, ?_⟩
  · rw [h3]; rfl
  · rw [h4, hfold]; rfl
  · intro hf
    rw [h2, hfold]
    have hw : (applyHandlers h (allItems api.pages) s).store.googleWatch
        = s.store.googleWatch := applyHandlers_googleWatch h hf _ _
    cases hgw : s.store.googleWatch with
    | none => rw [getWatchToken, hgw] at htok; simp at htok
    | some w => simp [getWatchToken, saveNextSyncToken, hw, hgw]

/-- Claim C3 witness: a handler that throws on every event still sees every
event of the three-page pull, and the token still advances to `T3`. -/
theorem c3_handler_failure_isolated_witness :
    handledEvents (pullChanges hThrow calT123 sMapped).2.1 = allItems calT123.pages ∧
    tokenSaves (pullChanges hThrow calT123 sMapped).2.1 = ["T3"] ∧
    ((∀ ev st, ((hThrow ev st).1).store.googleWatch = st.store.googleWatch) →
      getWatchToken ((pullChanges hThrow calT123 sMapped).1).store = some "T3") :=
  c3_handler_failure_isolated hThrow calT123 sMapped "T0" "T3" rfl rfl rfl

/-- Claim C6: a pull that starts with no stored continuation token issues a
single probe call, saves the token it reports, and returns without passing
any event to the handler.  (The stated hypothesis that the watch row exists
matters: without it the save is a silent no-op — see the C10 theorem.) -/
theorem c6_absent_token_probe_reseed (h : Handler) (api : CalendarApi)
    (s : SyncState) (w : WatchRow) (pr : ProbeResp) (t : String)
    (hrow : s.store.googleWatch = some w)
    (hwt : w.next_sync_token = none)
    (hp : api.probe = .ok pr)
    (hpt : pr.nextSyncToken = some t) :
    pullChanges h api s =
      ({ s with store := saveNextSyncToken t s.store },
       [.probeCall, .saveToken t], .ok) ∧
    getWatchToken ((pullChanges h api s).1).store = some t ∧
    probeCalls (pullChanges h api s).2.1 = 1 ∧
    handledEvents (pullChanges h api s).2.1 = [] := by
  have hg : getWatchToken s.store = none := by simp [getWatchToken, hrow, hwt]
  have h1 : pullChanges h api s =
      ({ s with store := saveNextSyncToken t s.store },
       [.probeCall, .saveToken t], .ok) := by
    simp [pullChanges, hg, hp, hpt]
  refine ⟨h1, ?_, ?_, ?_⟩ <;> rw [h1]
  · simp [getWatchToken, saveNextSyncToken, hrow]
  · simp [probeCalls]
  · simp [handledEvents]

/-- Claim C6 witness: with a NULL stored token and a probe reporting `TF`,
the pull reseeds `TF` and handles nothing. -/
theorem c6_absent_token_probe_reseed_witness :
    pullChanges hThrow ⟨.ok ⟨some "TF"⟩, []⟩ sNoTok =
      ({ sNoTok with store := saveNextSyncToken "TF" sNoTok.store },
       [.probeCall, .saveToken "TF"], .ok) ∧
    getWatchToken ((pullChanges hThrow ⟨.ok ⟨some "TF"⟩, []⟩ sNoTok).1).store = some "TF" ∧
    probeCalls (pullChanges hThrow ⟨.ok ⟨some "TF"⟩, []⟩ sNoTok).2.1 = 1 ∧
    handledEvents (pullChanges hThrow ⟨.ok ⟨some "TF"⟩, []⟩ sNoTok).2.1 = [] :=
  c6_absent_token_probe_reseed hThrow ⟨.ok ⟨some "TF"⟩, []⟩ sNoTok
    ⟨"", "", "", none⟩ ⟨some "TF"⟩ "TF" rfl rfl rfl rfl

/-- Claim C10 (implicit): `saveNextSyncToken` is a bare
`UPDATE ... WHERE id=1`, so while the `google_watch` row does not exist it
leaves the store entirely unchanged; a probe reseed stores nothing, and even a
successfully drained pull (reached when the probe reports no token) ends with
the continuation token still absent. -/
theorem c10_save_token_noop_without_row (s : SyncState)
    (hrow : s.store.googleWatch = none) :
    (∀ t, saveNextSyncToken t s.store = s.store) ∧
    (∀ (h : Handler) (api : CalendarApi) (pr : ProbeResp) (t : String),
      api.probe = .ok pr → pr.nextSyncToken = some t →
      (pullChanges h api s).1 = s) ∧
    (∀ (h : Handler) (api : CalendarApi) (pr : ProbeResp),
      (∀ ev st, ((h ev st).1).store.googleWatch = st.store.googleWatch) →
      api.probe = .ok pr → pr.nextSyncToken = none →
      drainsAll api.pages = true →
      getWatchToken ((pullChanges h api s).1).store = none) := by
  refine ⟨?_, ?_, ?_⟩
  · intro t; simp [saveNextSyncToken, hrow]
  · intro h api pr t hp ht
    have hg : (getWatchToken s.store).isNone = true := by
      simp [getWatchToken, hrow]
    simp only [pullChanges, hg, if_true, hp, ht]
    simp [saveNextSyncToken, hrow]
  · intro h api pr hf hp ht hd
    have hg : (getWatchToken s.store).isNone = true := by
      simp [getWatchToken, hrow]
    have hpull : pullChanges h api s =
        drainPages h api.probe api.pages s none [.probeCall] := by
      simp only [pullChanges, hg, if_true, hp, ht]
    obtain ⟨h1, h2, h3, h4, h5, h6⟩ :=
      drain_facts h api.probe api.pages hd s none [.probeCall]
    rw [hpull, h2]
    have hw : (applyHandlers h (allItems api.pages) s).store.googleWatch = none :=
      (applyHandlers_googleWatch h hf _ _).trans hrow
    cases hfold : foldSync none api.pages with
    | none => simp [getWatchToken, hw]
    | some t => simp [getWatchToken, saveNextSyncToken, hw]

/-- Claim C10 witness: with no `google_watch` row, saving a token changes
nothing, and a pull whose probe reports `TX` leaves the store as it was. -/
theorem c10_save_token_noop_without_row_witness :
    saveNextSyncToken "TX" sNoRow.store = sNoRow.store ∧
    (pullChanges hThrow ⟨.ok ⟨some "TX"⟩, []⟩ sNoRow).1 = sNoRow :=
  ⟨(c10_save_token_noop_without_row sNoRow rfl).1 "TX",
   (c10_save_token_noop_without_row sNoRow rfl).2.1 hThrow
     ⟨.ok ⟨some "TX"⟩, []⟩ ⟨some "TX"⟩ "TX" rfl rfl⟩

/-- Claim C5: for a cancelled event with an existing mapping, the handler
attempts the downstream cancel exactly once and deletes the mapping, so
`getMapping` afterwards returns none — and since the downstream outcome
`api.deleteJob` is arbitrary here (its result is swallowed by the `.catch`),
this holds whether the cancel succeeded or failed. -/
theorem c5_cancel_clears_mapping (api : HcpApi) (ev : GEvent) (s : SyncState)
    (j : String) (endI : Option String)
    (hcanc : ev.status = some "cancelled")
    (hlock : ev.id ∉ s.locks)
    (hnorm : effectiveEndE ev = .ok endI)
    (hmap : getMapping ev.id s.store = some j) :
    getMapping ev.id ((handleCalendarEvent api ev s).1).store = none ∧
    deleteJobCalls (handleCalendarEvent api ev s).2.1 = 1 := by
  have hc : (ev.status == some "cancelled") = true := by simp [hcanc]
  rw [handle_cancelled api ev s j endI hlock hnorm hc hmap]
  constructor
  · exact getMapping_delete ev.id s.store
  · simp [deleteJobCalls, HCall.isDeleteJob]

/-- Claim C5 witness: cancelling mapped `ev1` against a downstream whose
delete call fails (`apiOk.deleteJob` returns HTTP 500) still clears the
mapping, with one cancel attempt. -/
theorem c5_cancel_clears_mapping_witness :
    getMapping "ev1" ((handleCalendarEvent apiOk evCancelled sMapped).1).store = none ∧
    deleteJobCalls (handleCalendarEvent apiOk evCancelled sMapped).2.1 = 1 :=
  c5_cancel_clears_mapping apiOk evCancelled sMapped "J1" none rfl
    (by simp [sMapped]) rfl rfl

/-- Claim C4: for an active mapped event whose update call fails — on
`NotFound` (HTTP 404) the handler recreates the job and upserts the mapping to
the new id (the old id is discarded and the event still has exactly one
mapping row); on any other update error it leaves the whole state, the
mapping included, unchanged for the next pull to retry. -/
theorem c4_update_notfound_recreates (api : HcpApi) (ev : GEvent)
    (s : SyncState) (j cid : String) (endI : Option String) (e : HErr)
    (hlock : ev.id ∉ s.locks)
    (hnorm : effectiveEndE ev = .ok endI)
    (hcanc : (ev.status == some "cancelled") = false)
    (hs : truthy (startISOf ev) = true)
    (he : truthy endI = true)
    (hmap : getMapping ev.id s.store = some j)
    (hres : api.resolveCustomerId = .ok cid)
    (hupd : api.updateJob j (mkJobFields ev endI) = .error e) :
    (∀ nid, isNotFound e = true →
      api.createJob cid (mkJobFields ev endI) = .ok (some nid) →
      (nid == "") = false →
      getMapping ev.id ((handleCalendarEvent api ev s).1).store = some nid ∧
      countMapping ev.id ((handleCalendarEvent api ev s).1).store = 1 ∧
      createCalls (handleCalendarEvent api ev s).2.1 = 1) ∧
    (isNotFound e = false →
      (handleCalendarEvent api ev s).1 = s ∧
      getMapping ev.id ((handleCalendarEvent api ev s).1).store = some j) := by
  have hh := handle_mapped api ev s j endI hlock hnorm hcanc hs he hmap
  simp only [hres, hupd] at hh
  constructor
  · intro nid hnf hcre hne
    have htr : truthy (some nid) = true := by simp [truthy, hne]
    simp only [hnf, if_true, hcre, htr] at hh
    rw [hh]
    refine ⟨?_, ?_, ?_⟩
    · simpa using getMapping_put ev.id nid s.store hne
    · simpa using countMapping_put ev.id nid s.store
    · simp [createCalls, HCall.isCreate]
  · intro hnf
    simp only [hnf, Bool.false_eq_true, if_false] at hh
    rw [hh]
    exact ⟨rfl, by simpa using hmap⟩

/-- Claim C4 witness: mapped `ev1 → J1`, update 404s, creation returns `J2`:
the mapping becomes `ev1 → J2`, still a single row, with one create call. -/
theorem c4_update_notfound_recreates_witness :
    getMapping "ev1" ((handleCalendarEvent api404 evActive sMapped).1).store = some "J2" ∧
    countMapping "ev1" ((handleCalendarEvent api404 evActive sMapped).1).store = 1 ∧
    createCalls (handleCalendarEvent api404 evActive sMapped).2.1 = 1 :=
  (c4_update_notfound_recreates api404 evActive sMapped "J1" "c1"
      (some "2024-01-01T12:00:00Z") (.http 404)
      (by simp [sMapped]) rfl rfl rfl rfl rfl rfl rfl).1
    "J2" rfl rfl rfl

/-- Claim C1: reconciling an active, already-mapped event is idempotent —
when the downstream update succeeds, the handler leaves the state exactly as
it was, so a second run with nothing changed returns the very same result;
the event keeps exactly one mapping row and no create call is issued in
either run.  Moreover, for any downstream behaviour, a create call can only
have been issued after the update call for the mapped job returned
`NotFound`, and the mapping lookup is always the first call of the trace,
before any create. -/
theorem c1_reconciliation_idempotent (api : HcpApi) (ev : GEvent)
    (s : SyncState) (j : String) (endI : Option String)
    (hlock : ev.id ∉ s.locks)
    (hnorm : effectiveEndE ev = .ok endI)
    (hcanc : (ev.status == some "cancelled") = false)
    (hs : truthy (startISOf ev) = true)
    (he : truthy endI = true)
    (hmap : getMapping ev.id s.store = some j)
    (hnd : (s.store.mappings.map Prod.fst).Nodup) :
    (∀ cid, api.resolveCustomerId = .ok cid →
      api.updateJob j (mkJobFields ev endI) = .ok () →
      (handleCalendarEvent api ev s).1 = s ∧
      handleCalendarEvent api ev (handleCalendarEvent api ev s).1 =
        handleCalendarEvent api ev s ∧
      createCalls (handleCalendarEvent api ev s).2.1 = 0 ∧
      countMapping ev.id ((handleCalendarEvent api ev s).1).store = 1) ∧
    (createCalls (handleCalendarEvent api ev s).2.1 > 0 →
      ∃ cid e, api.resolveCustomerId = .ok cid ∧
        api.updateJob j (mkJobFields ev endI) = .error e ∧
        isNotFound e = true) ∧
    ((handleCalendarEvent api ev s).2.1).head? =
      some (.getMapping ev.id (some j)) := by
  have hh := handle_mapped api ev s j endI hlock hnorm hcanc hs he hmap
  have hcount : countMapping ev.id s.store = 1 := by
    unfold getMapping at hmap
    cases hfq : s.store.mappings.find? fun q => q.1 == ev.id with
    | none => rw [hfq] at hmap; simp at hmap
    | some p => exact count_of_find ev.id s.store.mappings hnd p hfq
  refine ⟨?_, ?_, ?_⟩
  · intro cid hres hupd
    simp only [hres, hupd] at hh
    refine ⟨by rw [hh], ?_, by rw [hh]; simp [createCalls, HCall.isCreate], ?_⟩
    · rw [hh]
      exact hh
    · rw [hh]
      exact hcount
  · intro hcc
    cases hres : api.resolveCustomerId with
    | error e0 =>
      simp only [hres] at hh
      rw [hh] at hcc
      simp [createCalls, HCall.isCreate] at hcc
    | ok cid =>
      simp only [hres] at hh
      cases hupd : api.updateJob j (mkJobFields ev endI) with
      | ok u =>
        simp only [hupd] at hh
        rw [hh] at hcc
        simp [createCalls, HCall.isCreate] at hcc
      | error err =>
        simp only [hupd] at hh
        by_cases hnf : isNotFound err = true
        · exact ⟨cid, err, rfl, rfl, hnf⟩
        · rw [Bool.not_eq_true] at hnf
          simp only [hnf, Bool.false_eq_true, if_false] at hh
          rw [hh] at hcc
          simp [createCalls, HCall.isCreate] at hcc
  · cases hres : api.resolveCustomerId with
    | error e0 => simp only [hres] at hh; rw [hh]; rfl
    | ok cid =>
      simp only [hres] at hh
      cases hupd : api.updateJob j (mkJobFields ev endI) with
      | ok u => simp only [hupd] at hh; rw [hh]; rfl
      | error err =>
        simp only [hupd] at hh
        by_cases hnf : isNotFound err = true
        · simp only [hnf, if_true] at hh
          cases hcre : api.createJob cid (mkJobFields ev endI) with
          | error ce => simp only [hcre] at hh; rw [hh]; rfl
          | ok hid =>
            simp only [hcre] at hh
            by_cases hth : truthy hid = true
            · simp only [hth, if_true] at hh; rw [hh]; rfl
            · rw [Bool.not_eq_true] at hth
              simp only [hth, Bool.false_eq_true, if_false] at hh
              rw [hh]
              rfl
        · rw [Bool.not_eq_true] at hnf
          simp only [hnf, Bool.false_eq_true, if_false] at hh
          rw [hh]
          rfl

/-- Claim C1 witness: replaying mapped active `ev1` against a healthy
downstream — the state is untouched, the rerun returns the same result, no
create call is made, and `ev1` keeps its single mapping row. -/
theorem c1_reconciliation_idempotent_witness :
    (handleCalendarEvent apiOk evActive sMapped).1 = sMapped ∧
    handleCalendarEvent apiOk evActive (handleCalendarEvent apiOk evActive sMapped).1 =
      handleCalendarEvent apiOk evActive sMapped ∧
    createCalls (handleCalendarEvent apiOk evActive sMapped).2.1 = 0 ∧
    countMapping "ev1" ((handleCalendarEvent apiOk evActive sMapped).1).store = 1 :=
  (c1_reconciliation_idempotent apiOk evActive sMapped "J1"
      (some "2024-01-01T12:00:00Z")
      (by simp [sMapped]) rfl rfl rfl rfl rfl (by simp [sMapped, storeMapped])).1
    "c1" rfl rfl

/-- Claim C7 counterexample: `createJob` issues exactly one HTTP request
through the bare axios client.  With a first response of HTTP 429 (and two
further responses available that a retrying wrapper would have consumed), the
code makes a single attempt and surfaces the raw 429 — there is no minimum
inter-call spacing, no backoff retry up to 3 attempts, and no
`RateLimitExceeded` failure (the code's error type cannot even express one). -/
theorem c7_counterexample :
    createJobHttp [.error (.http 429),
        .ok ⟨some "J9", none, none⟩, .ok ⟨some "J9", none, none⟩] =
      (.error (.http 429), 1) ∧
    (createJobHttp [.error (.http 429),
        .ok ⟨some "J9", none, none⟩, .ok ⟨some "J9", none, none⟩]).2 ≠ 3 := by
  exact ⟨rfl, by decide⟩

/-- Claim C7 (amended): every `createJob` call issues exactly one request
through a plain axios client (20000 ms timeout, no wrapper); there is no
inter-call spacing and no retry — any failure, a too-many-requests response
included, propagates unchanged to the caller, and a success returns the id
extracted from the response. -/
theorem c7_single_attempt_passthrough (rs : List (Except HErr CreateResp))
    (r : Except HErr CreateResp) (hr : rs.head? = some r) :
    (createJobHttp rs).2 = 1 ∧
    (∀ e, r = .error e → (createJobHttp rs).1 = .error e) ∧
    (∀ resp, r = .ok resp →
      (createJobHttp rs).1 = .ok (jsOr resp.id (jsOr resp.jobId resp.dataId))) := by
  cases rs with
  | nil => simp at hr
  | cons a tl =>
    have ha : a = r := by simpa using hr
    subst ha
    refine ⟨?_, ?_, ?_⟩
    · cases a <;> rfl
    · intro e hre; rw [hre]; rfl
    · intro resp hre; rw [hre]; rfl

/-- Claim C7 amended witness: a lone 429 response propagates as-is after one
attempt. -/
theorem c7_single_attempt_passthrough_witness :
    (createJobHttp [.error (.http 429)]).2 = 1 ∧
    (∀ e, (Except.error (.http 429) : Except HErr CreateResp) = .error e →
      (createJobHttp [.error (.http 429)]).1 = .error e) ∧
    (∀ resp, (Except.error (.http 429) : Except HErr CreateResp) = .ok resp →
      (createJobHttp [.error (.http 429)]).1 =
        .ok (jsOr resp.id (jsOr resp.jobId resp.dataId))) :=
  c7_single_attempt_passthrough [.error (.http 429)] (.error (.http 429)) rfl

/-- Claim C8: an active event with a timed start (a `dateTime` string longer
than the 10 characters of a bare date) and no end gets an effective end of
start + 60 minutes; in particular `2024-01-01T10:00:00Z` yields the instant
`2024-01-01T11:00:00Z` (printed by `toISOString` with millisecond precision
as `2024-01-01T11:00:00.000Z`, the same instant). -/
theorem c8_missing_end_synthesis (ev : GEvent) (sISO : String) (t : Int)
    (hdt : ev.start.bind GTime.dateTime = some sISO)
    (hne : (sISO == "") = false)
    (hlen : sISO.length > 10)
    (hnoend : truthy (rawEndISOf ev) = false)
    (hparse : parseISO sISO = some t) :
    effectiveEndE ev = .ok (some (toISOString (t + 60 * 60000))) ∧
    effectiveEndE evNoEnd = .ok (some "2024-01-01T11:00:00.000Z") ∧
    parseISO "2024-01-01T10:00:00Z" = some 1704103200000 ∧
    parseISO "2024-01-01T11:00:00.000Z" = some (1704103200000 + 3600000) ∧
    parseISO "2024-01-01T11:00:00Z" = some (1704103200000 + 3600000) := by
  refine ⟨?_, rfl, by decide, by decide, by decide⟩
  have hstart : startISOf ev = some sISO := by
    simp [startISOf, jsOr, truthy, hdt, hne]
  have hts : truthy (some sISO) = true := by simp [truthy, hne]
  simp [effectiveEndE, hstart, hnoend, hts, hlen, hparse]

/-- Claim C8 witness: the spec's own example event. -/
theorem c8_missing_end_synthesis_witness :
    effectiveEndE evNoEnd =
      .ok (some (toISOString (1704103200000 + 60 * 60000))) ∧
    effectiveEndE evNoEnd = .ok (some "2024-01-01T11:00:00.000Z") ∧
    parseISO "2024-01-01T10:00:00Z" = some 1704103200000 ∧
    parseISO "2024-01-01T11:00:00.000Z" = some (1704103200000 + 3600000) ∧
    parseISO "2024-01-01T11:00:00Z" = some (1704103200000 + 3600000) :=
  c8_missing_end_synthesis evNoEnd "2024-01-01T10:00:00Z" 1704103200000
    rfl rfl (by decide) rfl (by decide)

/-- Claim C9 counterexample: with no configured id, no cache entry and a
customer listing that is exhausted without a match (one page, no
`next_page`), `resolveCustomerId` fails hard at once — its trace is a single
listing call with no create-customer call, contradicting the claimed
create-if-missing fallback before failing. -/
theorem c9_counterexample :
    (resolveCustomerId none none none fun _ => .ok ⟨[], false⟩).1 =
      .error .couldNotResolve ∧
    (resolveCustomerId none none none fun _ => .ok ⟨[], false⟩).2.1 =
      [.list 1] := by
  exact ⟨rfl, rfl⟩

/-- Claim C9 (amended): no execution of `resolveCustomerId` ever issues a
create-customer call, and whenever the bounded listing is exhausted without a
case-insensitive name match (or a page fetch fails), the resolution fails
hard immediately with an error. -/
theorem c9_exhaustion_fails_without_create :
    (∀ configured cached envName fetch,
      RCCall.createCustomer ∉ (resolveCustomerId configured cached envName fetch).2.1) ∧
    (∀ envName fetch,
      (∀ (p : Nat) (resp : CustomersResp), fetch p = .ok resp →
        ∀ c ∈ resp.data, nameMatches (effTarget envName) c = false) →
      ∃ er, (resolveCustomerId none none envName fetch).1 = .error er) := by
  have hloop : ∀ (fetch : Nat → Except HErr CustomersResp) (target : String)
      (budget page : Nat) (calls : List RCCall),
      RCCall.createCustomer ∉ calls →
      RCCall.createCustomer ∉ (resolveLoop fetch target budget page calls).2.1 := by
    intro fetch target budget
    induction budget with
    | zero => intro page calls hc; simpa [resolveLoop] using hc
    | succ n ih =>
      intro page calls hc
      simp only [resolveLoop]
      cases hf : fetch page with
      | error e => simp [hf, List.mem_append, hc]
      | ok resp =>
        cases hfind : resp.data.find? (nameMatches target) with
        | some c => simp [hf, hfind, List.mem_append, hc]
        | none =>
          by_cases hnp : resp.next_page = true
          · have hrec := ih (page + 1) (calls ++ [RCCall.list page])
              (by simp [List.mem_append, hc])
            simp [hf, hfind, hnp, hrec]
          · rw [Bool.not_eq_true] at hnp
            simp [hf, hfind, hnp, List.mem_append, hc]
  have hfail : ∀ (fetch : Nat → Except HErr CustomersResp) (target : String),
      (∀ (p : Nat) (resp : CustomersResp), fetch p = .ok resp →
        ∀ c ∈ resp.data, nameMatches target c = false) →
      ∀ (budget page : Nat) (calls : List RCCall),
      ∃ er, (resolveLoop fetch target budget page calls).1 = .error er := by
    intro fetch target hnm budget
    induction budget with
    | zero => intro page calls; exact ⟨.couldNotResolve, rfl⟩
    | succ n ih =>
      intro page calls
      simp only [resolveLoop]
      cases hf : fetch page with
      | error e => exact ⟨.axios e, by simp [hf]⟩
      | ok resp =>
        cases hfind : resp.data.find? (nameMatches target) with
        | some c =>
          have hcm := List.mem_of_find?_eq_some hfind
          have hcp := List.find?_some hfind
          rw [hnm page resp hf c hcm] at hcp
          cases hcp
        | none =>
          by_cases hnp : resp.next_page = true
          · obtain ⟨er, her⟩ := ih (page + 1) (calls ++ [RCCall.list page])
            exact ⟨er, by simp [hf, hfind, hnp, her]⟩
          · rw [Bool.not_eq_true] at hnp
            exact ⟨.couldNotResolve, by simp [hf, hfind, hnp]⟩
  constructor
  · intro configured cached envName fetch
    by_cases h1 : truthy (configured.map String.trim) = true
    · simp [resolveCustomerId, h1]
    · rw [Bool.not_eq_true] at h1
      by_cases h2 : truthy cached = true
      · simp [resolveCustomerId, h1, h2]
      · rw [Bool.not_eq_true] at h2
        simp only [resolveCustomerId, h1, h2, Bool.false_eq_true, if_false]
        exact hloop fetch _ 5 1 [] (by simp)
  · intro envName fetch hnm
    exact hfail fetch (effTarget envName) hnm 5 1 []

/-- Claim C9 amended witness: the empty-listing downstream — no create call
in the trace, and resolution fails with an error. -/
theorem c9_exhaustion_fails_without_create_witness :
    RCCall.createCustomer ∉
      (resolveCustomerId none none none fun _ => .ok ⟨[], false⟩).2.1 ∧
    ∃ er, (resolveCustomerId none none none fun _ => .ok ⟨[], false⟩).1 =
      .error er :=
  ⟨c9_exhaustion_fails_without_create.1 none none none _,
   c9_exhaustion_fails_without_create.2 none _ (fun _ resp hresp c hc => by
     obtain rfl : resp = ⟨[], false⟩ := by injection hresp with h; exact h.symm
     simp at hc)⟩

end CalSync
